import Mathlib

/-!
Verification development for the TicketFlow repository.

The repository's `src/` tree contains a migration-plan document and one
development-server configuration file (`src/ticket-flow/vite.config.js`).
The form-engine subsystem described by the specification (schema-driven
dynamic form engine: Conditional Evaluator, Validation Derivation, Form
Session) is not implemented anywhere under `src/`, so every definition of
that subsystem below is modelled from the specification's own words and is
marked as such in its doc comment.  The vite configuration is embedded
directly from the source file.
-/

namespace TicketFlow

/-- Embedded from `src/ticket-flow/vite.config.js`: the `server` block of the
configuration object passed to `defineConfig`. -/
structure ViteServerConfig where
  allowedHosts : List String
  host : Bool
deriving DecidableEq

/-- Embedded from `src/ticket-flow/vite.config.js` lines 3-8: `allowedHosts`
is the one-element list and `host` is `true`. -/
def viteServerConfig : ViteServerConfig :=
  { allowedHosts := ["ygzl4n-8000.csb.app"], host := true }

/-- Modelled from the spec (§3, missing from src/): the eight field types of
a FieldDefinition. -/
inductive FieldType
  | text
  | number
  | textarea
  | select
  | date
  | checkbox
  | radio
  | file
deriving DecidableEq

/-- Modelled from the spec (§3, missing from src/): a runtime field value.
Absence from the value map is represented by `Option.none` at lookup. -/
inductive Value
  | str (s : String)
  | num (n : Int)
  | boolV (b : Bool)
  | files (names : List String)
deriving DecidableEq

/-- Modelled from the spec (§9, missing from src/): conditional expressions
(`visibleWhen` / `readOnlyWhen` / conditional `required`) as a small
tagged-variant tree: literal, field-reference comparisons (equality,
inequality, membership), logical and/or. -/
inductive CondExpr
  | lit (b : Bool)
  | eqVal (fieldId : String) (v : Value)
  | neqVal (fieldId : String) (v : Value)
  | memVal (fieldId : String) (vs : List Value)
  | andE (a b : CondExpr)
  | orE (a b : CondExpr)
deriving DecidableEq

/-- Modelled from the spec (§3, missing from src/): a FieldDefinition with
its id, type, label, options, conditional `required`, `visibleWhen`,
`readOnlyWhen`, and declared validation bounds (numeric range, string
length, file count). -/
structure FieldDefinition where
  id : String
  ftype : FieldType
  label : String
  options : List String
  required : CondExpr
  visibleWhen : Option CondExpr
  readOnlyWhen : Option CondExpr
  minNum : Option Int
  maxNum : Option Int
  minLen : Option Nat
  maxLen : Option Nat
  maxFiles : Option Nat
deriving DecidableEq

/-- Modelled from the spec (§3, missing from src/): a SectionDefinition
groups an ordered sequence of FieldDefinitions under a heading. -/
structure SectionDefinition where
  id : String
  title : String
  fields : List FieldDefinition
deriving DecidableEq

/-- Modelled from the spec (§3, missing from src/): a FormSchema is an
ordered sequence of SectionDefinitions plus id/version metadata. -/
structure FormSchema where
  id : String
  version : Nat
  sections : List SectionDefinition
deriving DecidableEq

/-- Modelled from the spec (§3, missing from src/): the FieldValue map, a
single flat map keyed by field id, here an association list. -/
abbrev Values : Type := List (String × Value)

/-- Look a field id up in a value map; `none` means the field is unset. -/
def lookupVal (vs : Values) (f : String) : Option Value :=
  match vs with
  | [] => none
  | (k, v) :: rest => if k = f then some v else lookupVal rest f

/-- Replace the value stored for a field id, appending when absent. -/
def setVal (vs : Values) (f : String) (v : Value) : Values :=
  match vs with
  | [] => [(f, v)]
  | (k, w) :: rest => if k = f then (k, v) :: rest else (k, w) :: setVal rest f v

/-- All fields of a schema in declaration order (sections in order, fields
in order within each section). -/
def fieldsOf (s : FormSchema) : List FieldDefinition :=
  (s.sections.map (fun sec => sec.fields)).flatten

/-- All field ids of a schema in declaration order. -/
def fieldIds (s : FormSchema) : List String :=
  (fieldsOf s).map (fun f => f.id)

/-- Modelled from the spec (§4.1, missing from src/): evaluate a conditional
expression against the current values.  A comparison whose referenced field
is unset evaluates to false (the spec's scenario: `state` with
`visibleWhen: country == US` is not visible while `country` is unset). -/
def evalCond (vals : Values) : CondExpr → Bool
  | .lit b => b
  | .eqVal f v =>
      match lookupVal vals f with
      | some w => decide (w = v)
      | none => false
  | .neqVal f v =>
      match lookupVal vals f with
      | some w => decide (w ≠ v)
      | none => false
  | .memVal f vs =>
      match lookupVal vals f with
      | some w => vs.any (fun x => decide (x = w))
      | none => false
  | .andE a b => evalCond vals a && evalCond vals b
  | .orE a b => evalCond vals a || evalCond vals b

/-- Modelled from the spec (§4.1, missing from src/): per-field output of the
Conditional Evaluator. -/
structure EvalState where
  visible : Bool
  readOnly : Bool
deriving DecidableEq

/-- Modelled from the spec (§4.1, missing from src/): a field with no
`visibleWhen` is always visible; a field with no `readOnlyWhen` is not
read-only. -/
def evalField (vals : Values) (f : FieldDefinition) : EvalState :=
  { visible :=
      match f.visibleWhen with
      | some c => evalCond vals c
      | none => true
    readOnly :=
      match f.readOnlyWhen with
      | some c => evalCond vals c
      | none => false }

/-- Modelled from the spec (§4.1, missing from src/): the Conditional
Evaluator, a pure function from (schema, values) to the visibility and
read-only state of every field, in schema declaration order. -/
def evaluate (s : FormSchema) (vals : Values) : List (String × EvalState) :=
  (fieldsOf s).map (fun f => (f.id, evalField vals f))

/-- Look a field id up in an evaluator output. -/
def lookupState (st : List (String × EvalState)) (f : String) : Option EvalState :=
  match st with
  | [] => none
  | (k, v) :: rest => if k = f then some v else lookupState rest f

/-- Modelled from the spec (§4.2, missing from src/): a value counts as
absent/empty when it is unset, an empty string, or an empty file list. -/
def isEmptyValue : Option Value → Bool
  | none => true
  | some (.str s) => s.isEmpty
  | some (.files ns) => ns.isEmpty
  | some _ => false

/-- Membership of a string in a field's declared option set. -/
def inOptions (opts : List String) (s : String) : Bool :=
  opts.any (fun o => decide (o = s))

/-- Modelled from the spec (§4.2, missing from src/): the type-appropriate
checks for one field — conditional required-non-empty, numeric range if
declared, string length if declared, option-membership for select/radio,
file-count if declared for file fields. -/
def checkField (vals : Values) (f : FieldDefinition) : List String :=
  let v := lookupVal vals f.id
  let reqErr := if evalCond vals f.required && isEmptyValue v then ["required"] else []
  let numErr :=
    match v with
    | some (.num n) =>
        (match f.minNum with
         | some lo => if n < lo then ["below minimum"] else []
         | none => []) ++
        (match f.maxNum with
         | some hi => if hi < n then ["above maximum"] else []
         | none => [])
    | _ => []
  let lenErr :=
    match v with
    | some (.str s) =>
        (match f.minLen with
         | some lo => if s.length < lo then ["too short"] else []
         | none => []) ++
        (match f.maxLen with
         | some hi => if hi < s.length then ["too long"] else []
         | none => [])
    | _ => []
  let optErr :=
    match f.ftype, v with
    | .select, some (.str s) => if !s.isEmpty && !inOptions f.options s then ["not an option"] else []
    | .radio, some (.str s) => if !s.isEmpty && !inOptions f.options s then ["not an option"] else []
    | _, _ => []
  let fileErr :=
    match f.ftype, v, f.maxFiles with
    | .file, some (.files ns), some m => if m < ns.length then ["too many files"] else []
    | _, _, _ => []
  reqErr ++ numErr ++ lenErr ++ optErr ++ fileErr

/-- Modelled from the spec (§4.2, missing from src/): Validation Derivation.
Only fields currently visible per the Conditional Evaluator output receive
an entry; hidden fields are excluded from validation entirely.  Absence of a
field id (or an empty error list) means the field is valid. -/
def validate (s : FormSchema) (vals : Values) (vis : List (String × EvalState)) :
    List (String × List String) :=
  (fieldsOf s).filterMap (fun f =>
    match lookupState vis f.id with
    | some st => if st.visible then some (f.id, checkField vals f) else none
    | none => none)

/-- Look a field id up in a validation result. -/
def lookupErrs (errs : List (String × List String)) (f : String) : Option (List String) :=
  match errs with
  | [] => none
  | (k, v) :: rest => if k = f then some v else lookupErrs rest f

/-- Modelled from the spec (§7, missing from src/): the error taxonomy of the
form engine core (autosave failure is external I/O and out of scope). -/
inductive FormError
  | schemaError
  | unknownField
  | validationError (errs : List (String × List String))
deriving DecidableEq

/-- Modelled from the spec (§6, missing from src/): the per-field entry of an
evaluated snapshot — visible, read-only, value, errors. -/
structure FieldSnapshot where
  visible : Bool
  readOnly : Bool
  value : Option Value
  errors : List String
deriving DecidableEq

/-- Modelled from the spec (§4.3 and §6, missing from src/): the full
evaluated snapshot for all fields: visibility and read-only state via the
Conditional Evaluator and errors via Validation Derivation. -/
def snapshot (s : FormSchema) (vals : Values) : List (String × FieldSnapshot) :=
  let vis := evaluate s vals
  let errs := validate s vals vis
  (fieldsOf s).map (fun f =>
    let st := (lookupState vis f.id).getD { visible := true, readOnly := false }
    (f.id,
      { visible := st.visible
        readOnly := st.readOnly
        value := lookupVal vals f.id
        errors := (lookupErrs errs f.id).getD [] }))

/-- Field ids referenced by a conditional expression. -/
def refsOf : CondExpr → List String
  | .lit _ => []
  | .eqVal f _ => [f]
  | .neqVal f _ => [f]
  | .memVal f _ => [f]
  | .andE a b => refsOf a ++ refsOf b
  | .orE a b => refsOf a ++ refsOf b

/-- All field ids referenced by a field's conditional expressions
(`visibleWhen`, `readOnlyWhen`, conditional `required`). -/
def fieldRefs (f : FieldDefinition) : List String :=
  refsOf f.required ++
  (match f.visibleWhen with
   | some c => refsOf c
   | none => []) ++
  (match f.readOnlyWhen with
   | some c => refsOf c
   | none => [])

/-- Modelled from the spec (§4.1, missing from src/): walk the fields in
declaration order and check that every conditional expression references
only fields declared strictly earlier (no self or forward references). -/
def refsOkAux (seen : List String) : List FieldDefinition → Bool
  | [] => true
  | f :: rest => (fieldRefs f).all (fun r => decide (r ∈ seen)) && refsOkAux (seen ++ [f.id]) rest

/-- Modelled from the spec (§4.1, missing from src/): the reference
discipline over a whole schema. -/
def refsOk (s : FormSchema) : Bool :=
  refsOkAux [] (fieldsOf s)

/-- Schema-wide field-id uniqueness (spec §3 invariant). -/
def noDupIds : List String → Bool
  | [] => true
  | x :: rest => !decide (x ∈ rest) && noDupIds rest

/-- Modelled from the spec (§3 and §4.1, missing from src/): the structural
checks performed once at schema-load time. -/
def schemaOk (s : FormSchema) : Bool :=
  noDupIds (fieldIds s) && refsOk s

/-- Modelled from the spec (§4.3, missing from src/): a Form Session holds
the immutable schema and the current value map. -/
structure Session where
  schema : FormSchema
  values : Values
deriving DecidableEq

/-- Modelled from the spec (§4.3, missing from src/): `create` fails with
`SchemaError` when the schema is malformed (duplicate ids, self or forward
reference) or when `initialValues` references field ids not present in the
schema. -/
def create (s : FormSchema) (init : Values) : Except FormError Session :=
  if schemaOk s && init.all (fun p => decide (p.1 ∈ fieldIds s)) then
    .ok { schema := s, values := init }
  else
    .error .schemaError

/-- Modelled from the spec (§4.3, missing from src/): `update` fails with
`UnknownFieldError` when the field id is absent from the schema; on success
it atomically replaces the value and returns the session together with the
full recomputed snapshot. -/
def update (sess : Session) (fid : String) (v : Value) :
    Except FormError (Session × List (String × FieldSnapshot)) :=
  if fid ∈ fieldIds sess.schema then
    let vals := setVal sess.values fid v
    .ok ({ sess with values := vals }, snapshot sess.schema vals)
  else
    .error .unknownField

/-- Modelled from the spec (§4.3, missing from src/): overall form validity —
no (visible) field has a non-empty error list. -/
def formValid (s : FormSchema) (vals : Values) : Bool :=
  (validate s vals (evaluate s vals)).all (fun p => p.2.isEmpty)

/-- Modelled from the spec (§4.3, missing from src/): `submit` fails with
`ValidationError` carrying the full error mapping when any visible field has
errors; otherwise it returns the full FieldValue map. -/
def submit (sess : Session) : Except FormError Values :=
  let errs := validate sess.schema sess.values (evaluate sess.schema sess.values)
  if errs.all (fun p => p.2.isEmpty) then .ok sess.values
  else .error (.validationError errs)

/-- Modelled from the spec (§4.3 and §5, missing from src/): the debounced
autosave state — the session, the deadline of the pending debounce timer
(if any), and the log of autosave attempt payloads. -/
structure AutosaveState where
  sess : Session
  pendingAt : Option Nat
  attempts : List Values
deriving DecidableEq

/-- Modelled from the spec (§4.3, missing from src/): an `update` arriving at
time `t` applies the value change and resets the pending debounce timer to
`t + d`; a failed update leaves the state unchanged. -/
def doUpdate (d : Nat) (st : AutosaveState) (t : Nat) (fid : String) (v : Value) :
    AutosaveState :=
  match update st.sess fid v with
  | .ok (sess, _) => { st with sess := sess, pendingAt := some (t + d) }
  | .error _ => st

/-- Modelled from the spec (§4.3, missing from src/): a timer firing at time
`t` is live only when `t` matches the pending deadline (a timer superseded
by a later update is stale and does nothing).  A live firing clears the
timer and records one autosave attempt with the current value map — unless
the form is currently invalid, in which case firing is skipped entirely. -/
def fireTimer (st : AutosaveState) (t : Nat) : AutosaveState :=
  match st.pendingAt with
  | some deadline =>
      if t = deadline then
        if formValid st.sess.schema st.sess.values then
          { st with pendingAt := none, attempts := st.attempts ++ [st.sess.values] }
        else
          { st with pendingAt := none }
      else st
  | none => st

/-- A field definition with everything optional switched off, used as a base
for concrete test fixtures. -/
def plainField (fid : String) (t : FieldType) : FieldDefinition :=
  { id := fid
    ftype := t
    label := fid
    options := []
    required := .lit false
    visibleWhen := none
    readOnlyWhen := none
    minNum := none
    maxNum := none
    minLen := none
    maxLen := none
    maxFiles := none }

/-- The spec's scenario fixture: a `country` select field (options US, CA). -/
def countryField : FieldDefinition :=
  { plainField "country" .select with options := ["US", "CA"] }

/-- The spec's scenario fixture: a required `state` field visible only when
`country` equals `US`. -/
def stateField : FieldDefinition :=
  { plainField "state" .text with
      required := .lit true
      visibleWhen := some (.eqVal "country" (.str "US")) }

/-- The spec's scenario schema: one section holding `country` then `state`. -/
def demoSchema : FormSchema :=
  { id := "demo"
    version := 1
    sections := [{ id := "s1", title := "Main", fields := [countryField, stateField] }] }

/-- A concrete session over the scenario schema with `country = CA` (the
`state` field is hidden, so the form is valid). -/
def demoSession : Session :=
  { schema := demoSchema, values := [("country", .str "CA")] }

/-- A schema violating the reference discipline: field `b` declares
`visibleWhen` referencing field `c`, and `c` is declared after `b`. -/
def badRefSchema : FormSchema :=
  { id := "bad"
    version := 1
    sections :=
      [{ id := "s1"
         title := "Main"
         fields :=
           [{ plainField "b" .text with visibleWhen := some (.eqVal "c" (.str "x")) },
            plainField "c" .text] }] }

/-- Declaration-order reference violation: some field's conditional
expressions reference a field id that is not declared strictly earlier in
schema order (covers self references and forward references). -/
def hasBadRef (s : FormSchema) : Prop :=
  ∃ i : Fin (fieldsOf s).length, ∃ r ∈ fieldRefs ((fieldsOf s).get i),
    r ∉ ((fieldsOf s).take i.val).map (fun f => f.id)

instance (s : FormSchema) : Decidable (hasBadRef s) := by
  unfold hasBadRef
  infer_instance

/-- C10: the development-server configuration exported by
`src/ticket-flow/vite.config.js` sets `server.host` to `true` and
`server.allowedHosts` to exactly the one-element list containing
`ygzl4n-8000.csb.app`. -/
theorem viteServerConfig_spec :
    viteServerConfig.host = true ∧
    viteServerConfig.allowedHosts = ["ygzl4n-8000.csb.app"] :=
  ⟨rfl, rfl⟩

/-- C2: the Conditional Evaluator is deterministic — two calls with
identical (schema, values) inputs return identical outputs (evaluation is a
pure function of its inputs by construction, so it has no side effects). -/
theorem evaluate_deterministic (s₁ s₂ : FormSchema) (v₁ v₂ : Values)
    (hs : s₁ = s₂) (hv : v₁ = v₂) : evaluate s₁ v₁ = evaluate s₂ v₂ := by
  rw [hs, hv]

/-- Witness for C2: the determinism theorem applied at the scenario schema
and a concrete value map. -/
theorem evaluate_deterministic_witness :
    evaluate demoSchema [("country", .str "US")] =
      evaluate demoSchema [("country", .str "US")] :=
  evaluate_deterministic demoSchema demoSchema
    [("country", .str "US")] [("country", .str "US")] rfl rfl

/-- Every entry of a validation result belongs to a field whose evaluator
state was found and says visible. -/
theorem mem_validate_lookup (s : FormSchema) (vals : Values)
    (vis : List (String × EvalState)) (p : String × List String)
    (h : p ∈ validate s vals vis) :
    ∃ st, lookupState vis p.1 = some st ∧ st.visible = true := by
  unfold validate at h
  rw [List.mem_filterMap] at h
  obtain ⟨f, _, hf⟩ := h
  cases hst : lookupState vis f.id with
  | none => rw [hst] at hf; exact absurd hf (by simp)
  | some st =>
    rw [hst] at hf
    cases hvis : st.visible with
    | false => simp [hvis] at hf
    | true =>
      simp [hvis] at hf
      subst hf
      exact ⟨st, hst, hvis⟩

/-- C1: a field that the Conditional Evaluator marks not-visible receives no
entry with a non-empty error list in the validation result, regardless of
its stored value: every entry of the result either concerns another field
or is empty. -/
theorem hidden_field_never_validated (s : FormSchema) (vals : Values)
    (fid : String) (st : EvalState)
    (hlook : lookupState (evaluate s vals) fid = some st)
    (hhid : st.visible = false) :
    (validate s vals (evaluate s vals)).all
      (fun p => decide (p.1 ≠ fid) || p.2.isEmpty) = true := by
  rw [List.all_eq_true]
  intro p hp
  obtain ⟨st', hst', hvis⟩ := mem_validate_lookup s vals (evaluate s vals) p hp
  by_cases heq : p.1 = fid
  · rw [heq, hlook] at hst'
    injection hst' with hst'
    rw [hst'] at hhid
    rw [hhid] at hvis
    exact absurd hvis (by simp)
  · simp [heq]

/-- Witness for C1: in the spec's scenario with `country = CA`, the `state`
field is hidden, and although it is required and empty, the validation
result has no entry with errors for it. -/
theorem hidden_field_never_validated_witness :
    (validate demoSchema [("country", Value.str "CA")]
        (evaluate demoSchema [("country", Value.str "CA")])).all
      (fun p => decide (p.1 ≠ "state") || p.2.isEmpty) = true :=
  hidden_field_never_validated demoSchema [("country", Value.str "CA")] "state"
    { visible := false, readOnly := false } rfl rfl

/-- C4: `submit` fails with `ValidationError` carrying the full per-field
error mapping exactly when some entry of the validation result (which holds
the currently visible fields) has a non-empty error list; otherwise it
returns the complete FieldValue map. -/
theorem submit_spec (sess : Session) :
    (submit sess =
        .error (.validationError
          (validate sess.schema sess.values (evaluate sess.schema sess.values))) ↔
      ∃ p ∈ validate sess.schema sess.values (evaluate sess.schema sess.values),
        p.2 ≠ []) ∧
    (submit sess = .ok sess.values ↔
      ∀ p ∈ validate sess.schema sess.values (evaluate sess.schema sess.values),
        p.2 = []) := by
  unfold submit
  by_cases hall :
      (validate sess.schema sess.values (evaluate sess.schema sess.values)).all
        (fun p => p.2.isEmpty) = true
  · rw [List.all_eq_true] at hall
    constructor
    · simp only [hall, List.all_eq_true]
      constructor
      · intro h
        rw [if_pos (by intro p hp; exact hall p hp)] at h
        exact absurd h (by simp)
      · intro ⟨p, hp, hne⟩
        have := hall p hp
        rw [List.isEmpty_iff] at this
        exact absurd this hne
    · rw [if_pos (by rw [List.all_eq_true]; intro p hp; exact hall p hp)]
      constructor
      · intro _ p hp
        have := hall p hp
        rwa [List.isEmpty_iff] at this
      · intro _
        rfl
  · have hne : ∃ p ∈ validate sess.schema sess.values
        (evaluate sess.schema sess.values), p.2 ≠ [] := by
      rw [List.all_eq_true] at hall
      push_neg at hall
      obtain ⟨p, hp, hp2⟩ := hall
      refine ⟨p, hp, ?_⟩
      intro hnil
      exact hp2 (by rw [List.isEmpty_iff]; exact hnil)
    rw [if_neg hall]
    constructor
    · constructor
      · intro _
        exact hne
      · intro _
        rfl
    · constructor
      · intro h
        exact absurd h (by simp)
      · intro hforall
        obtain ⟨p, hp, hp2⟩ := hne
        exact absurd (hforall p hp) hp2

/-- Witness for C4: the concrete session with `country = CA` has no visible
errors, so `submit` returns its full value map. -/
theorem submit_spec_witness : submit demoSession = .ok demoSession.values :=
  (submit_spec demoSession).2.mpr (by decide)

/-- The snapshot covers every field of the schema, in declaration order. -/
theorem snapshot_ids (s : FormSchema) (vals : Values) :
    (snapshot s vals).map Prod.fst = fieldIds s := by
  unfold snapshot fieldIds
  rw [List.map_map]
  rfl

/-- C5: `update` on a field id absent from the schema fails with
`UnknownFieldError` (so the session's value map is untouched — the error
branch produces no new session); on a field id present in the schema it
atomically replaces the value and returns the new session together with the
full recomputed snapshot, which has an entry for every schema field (never
only a diff). -/
theorem update_spec (sess : Session) (fid : String) (v : Value) :
    (fid ∉ fieldIds sess.schema → update sess fid v = .error .unknownField) ∧
    (fid ∈ fieldIds sess.schema →
      update sess fid v =
        .ok ({ schema := sess.schema, values := setVal sess.values fid v },
          snapshot sess.schema (setVal sess.values fid v)) ∧
      (snapshot sess.schema (setVal sess.values fid v)).map Prod.fst =
        fieldIds sess.schema) := by
  constructor
  · intro h
    unfold update
    rw [if_neg h]
  · intro h
    refine ⟨?_, snapshot_ids sess.schema (setVal sess.values fid v)⟩
    unfold update
    rw [if_pos h]

/-- Witness for C5: on the scenario session, updating the unknown field id
`zip` fails with `UnknownFieldError`, and updating `state` succeeds with a
snapshot covering both schema fields. -/
theorem update_spec_witness :
    update demoSession "zip" (Value.str "94016") = .error .unknownField ∧
    update demoSession "state" (Value.str "CA") =
      .ok ({ schema := demoSession.schema,
             values := setVal demoSession.values "state" (Value.str "CA") },
        snapshot demoSession.schema
          (setVal demoSession.values "state" (Value.str "CA"))) :=
  ⟨(update_spec demoSession "zip" (Value.str "94016")).1 (by decide),
   ((update_spec demoSession "state" (Value.str "CA")).2 (by decide)).1⟩

/-- Writing the same value twice into a value map is the same as writing it
once. -/
theorem setVal_idem (vs : Values) (f : String) (v : Value) :
    setVal (setVal vs f v) f v = setVal vs f v := by
  induction vs with
  | nil => simp [setVal]
  | cons hd tl ih =>
    obtain ⟨k, w⟩ := hd
    by_cases hk : k = f
    · simp [setVal, hk]
    · simp [setVal, hk, ih]

/-- C8: `update` is idempotent — when `update sess fid v` succeeds with a
new session and snapshot, running the same update again on the new session
returns exactly the same session and snapshot (no double-apply effects). -/
theorem update_idempotent (sess sess' : Session) (fid : String) (v : Value)
    (snap : List (String × FieldSnapshot))
    (h : update sess fid v = .ok (sess', snap)) :
    update sess' fid v = .ok (sess', snap) := by
  unfold update at h
  by_cases hmem : fid ∈ fieldIds sess.schema
  · rw [if_pos hmem] at h
    injection h with hpair
    injection hpair with h1 h2
    subst h1
    subst h2
    unfold update
    rw [if_pos hmem]
    rw [setVal_idem]
  · rw [if_neg hmem] at h
    exact absurd h (by simp)

/-- Witness for C8: updating `country` to `US` twice on the scenario session
yields the same result as once. -/
theorem update_idempotent_witness :
    update { schema := demoSchema, values := setVal demoSession.values "country" (Value.str "US") }
        "country" (Value.str "US") =
      .ok ({ schema := demoSchema,
             values := setVal demoSession.values "country" (Value.str "US") },
        snapshot demoSchema (setVal demoSession.values "country" (Value.str "US"))) :=
  update_idempotent demoSession
    { schema := demoSchema,
      values := setVal demoSession.values "country" (Value.str "US") }
    "country" (Value.str "US")
    (snapshot demoSchema (setVal demoSession.values "country" (Value.str "US")))
    (by rfl)

/-- C6: `create` fails with `SchemaError` whenever `initialValues` contains
a key that is not a declared field id of the schema. -/
theorem create_unknown_init (s : FormSchema) (init : Values)
    (h : ∃ p ∈ init, p.1 ∉ fieldIds s) :
    create s init = .error .schemaError := by
  unfold create
  obtain ⟨p, hp, hnot⟩ := h
  rw [if_neg]
  intro hcond
  rw [Bool.and_eq_true] at hcond
  rw [List.all_eq_true] at hcond
  exact hnot (by simpa using hcond.2 p hp)

/-- Witness for C6: creating a session over the scenario schema with an
initial value for the undeclared field `zip` fails with `SchemaError`. -/
theorem create_unknown_init_witness :
    create demoSchema [("zip", Value.str "94016")] = .error .schemaError :=
  create_unknown_init demoSchema [("zip", Value.str "94016")]
    ⟨("zip", Value.str "94016"), by decide, by decide⟩

/-- When the reference walk accepts a field list, every conditional reference
of the i-th field lies among the accumulator or the ids declared before i. -/
theorem refsOkAux_get (seen : List String) (l : List FieldDefinition)
    (h : refsOkAux seen l = true) (i : Fin l.length) (r : String)
    (hr : r ∈ fieldRefs (l.get i)) :
    r ∈ seen ++ (l.take i.val).map (fun f => f.id) := by
  induction l generalizing seen with
  | nil => exact absurd i.isLt (by simp)
  | cons f rest ih =>
    rw [refsOkAux, Bool.and_eq_true] at h
    obtain ⟨hall, hrest⟩ := h
    cases i using Fin.cases with
    | zero =>
      rw [List.all_eq_true] at hall
      have hm := hall r (by simpa using hr)
      simp only [Fin.val_zero, List.take_zero, List.map_nil, List.append_nil]
      simpa using hm
    | succ j =>
      have hm := ih (seen ++ [f.id]) hrest j (by simpa using hr)
      simp only [Fin.val_succ, List.take_succ_cons, List.map_cons]
      rw [List.append_assoc] at hm
      simpa using hm

/-- A schema with a self or forward reference fails the load-time reference
check. -/
theorem hasBadRef_refsOk_false (s : FormSchema) (h : hasBadRef s) :
    refsOk s = false := by
  cases hb : refsOk s with
  | false => rfl
  | true =>
    exfalso
    unfold refsOk at hb
    obtain ⟨i, r, hr, hnot⟩ := h
    have hm := refsOkAux_get [] (fieldsOf s) hb i r hr
    rw [List.nil_append] at hm
    exact hnot hm

/-- C3: when some field's conditional expression references itself or a
field declared later in schema order, loading the schema fails with
`SchemaError` at `create` (the single load-time check point), while
evaluation itself is total — it still returns a state for exactly the
schema's fields and never raises this error. -/
theorem forward_ref_fails_at_load (s : FormSchema) (init : Values) (vals : Values)
    (h : hasBadRef s) :
    create s init = .error .schemaError ∧
    (evaluate s vals).map Prod.fst = fieldIds s := by
  constructor
  · unfold create
    rw [if_neg]
    intro hcond
    rw [Bool.and_eq_true] at hcond
    have h1 := hcond.1
    unfold schemaOk at h1
    rw [Bool.and_eq_true] at h1
    have hf := hasBadRef_refsOk_false s h
    rw [h1.2] at hf
    exact absurd hf (by simp)
  · unfold evaluate fieldIds
    rw [List.map_map]
    rfl

/-- Witness for C3: the schema where `b` declares `visibleWhen` referencing
`c` and `c` is declared after `b` is rejected by `create`, while `evaluate`
still covers both fields. -/
theorem forward_ref_fails_at_load_witness :
    create badRefSchema [] = .error .schemaError ∧
    (evaluate badRefSchema []).map Prod.fst = fieldIds badRefSchema :=
  forward_ref_fails_at_load badRefSchema [] [] (by decide)

/-- C9: when `submit` succeeds, feeding the returned FieldValue map back as
`initialValues` of a fresh session over the same schema succeeds and that
session's full evaluated snapshot (visibility, read-only, errors) is the
one the original session had at submission. -/
theorem submit_roundtrip (sess : Session) (vals : Values)
    (hok : schemaOk sess.schema = true)
    (hkeys : sess.values.all (fun p => decide (p.1 ∈ fieldIds sess.schema)) = true)
    (h : submit sess = .ok vals) :
    create sess.schema vals = .ok { schema := sess.schema, values := vals } ∧
    snapshot sess.schema vals = snapshot sess.schema sess.values := by
  have hv : vals = sess.values := by
    unfold submit at h
    by_cases hall :
        (validate sess.schema sess.values (evaluate sess.schema sess.values)).all
          (fun p => p.2.isEmpty) = true
    · rw [if_pos hall] at h
      injection h with h
      exact h.symm
    · rw [if_neg hall] at h
      exact absurd h (by simp)
  subst hv
  refine ⟨?_, rfl⟩
  unfold create
  rw [if_pos]
  rw [Bool.and_eq_true]
  exact ⟨hok, hkeys⟩

/-- Witness for C9: the scenario session submits successfully, and its value
map recreates a session with the identical snapshot. -/
theorem submit_roundtrip_witness :
    create demoSession.schema demoSession.values =
      .ok { schema := demoSession.schema, values := demoSession.values } ∧
    snapshot demoSession.schema demoSession.values =
      snapshot demoSession.schema demoSession.values :=
  submit_roundtrip demoSession demoSession.values (by decide) (by decide) (by rfl)

/-- C7: two successful `update` calls at times `t1 < t2` inside one debounce
window of width `d` leave a single pending timer at `t2 + d`; the timer
scheduled by the first update (deadline `t1 + d`) is stale and fires
nothing, and the surviving timer produces exactly one autosave attempt
carrying the value map of the second (latest) update — or no attempt at all
when the form is invalid at firing time. -/
theorem debounce_single_autosave (d : Nat) (st0 : AutosaveState)
    (t1 t2 : Nat) (f1 f2 : String) (v1 v2 : Value)
    (hlt : t1 < t2) (hwin : t2 < t1 + d)
    (h1 : f1 ∈ fieldIds st0.sess.schema)
    (h2 : f2 ∈ fieldIds st0.sess.schema) :
    (formValid (doUpdate d (doUpdate d st0 t1 f1 v1) t2 f2 v2).sess.schema
        (doUpdate d (doUpdate d st0 t1 f1 v1) t2 f2 v2).sess.values = true →
      (fireTimer (fireTimer (doUpdate d (doUpdate d st0 t1 f1 v1) t2 f2 v2) (t1 + d))
          (t2 + d)).attempts =
        st0.attempts ++ [(doUpdate d (doUpdate d st0 t1 f1 v1) t2 f2 v2).sess.values]) ∧
    (formValid (doUpdate d (doUpdate d st0 t1 f1 v1) t2 f2 v2).sess.schema
        (doUpdate d (doUpdate d st0 t1 f1 v1) t2 f2 v2).sess.values = false →
      (fireTimer (fireTimer (doUpdate d (doUpdate d st0 t1 f1 v1) t2 f2 v2) (t1 + d))
          (t2 + d)).attempts = st0.attempts) := by
  have hu1 : doUpdate d st0 t1 f1 v1 =
      { sess := { schema := st0.sess.schema, values := setVal st0.sess.values f1 v1 }
        pendingAt := some (t1 + d)
        attempts := st0.attempts } := by
    simp [doUpdate, update, h1]
  have hu2 : doUpdate d (doUpdate d st0 t1 f1 v1) t2 f2 v2 =
      { sess := { schema := st0.sess.schema
                  values := setVal (setVal st0.sess.values f1 v1) f2 v2 }
        pendingAt := some (t2 + d)
        attempts := st0.attempts } := by
    rw [hu1]
    simp [doUpdate, update, h2]
  have hne : ¬ (t1 + d = t2 + d) := by omega
  rw [hu2]
  have hstale : fireTimer
      { sess := { schema := st0.sess.schema
                  values := setVal (setVal st0.sess.values f1 v1) f2 v2 }
        pendingAt := some (t2 + d)
        attempts := st0.attempts } (t1 + d) =
      { sess := { schema := st0.sess.schema
                  values := setVal (setVal st0.sess.values f1 v1) f2 v2 }
        pendingAt := some (t2 + d)
        attempts := st0.attempts } := by
    simp [fireTimer, hne]
  rw [hstale]
  constructor
  · intro hval
    dsimp only at hval ⊢
    simp only [fireTimer, if_true]
    rw [if_pos hval]
  · intro hval
    dsimp only at hval ⊢
    simp only [fireTimer, if_true]
    rw [if_neg (by rw [hval]; simp)]

/-- Witness for C7: two rapid `country` updates (to `US` at time 0, then to
`CA` at time 100) within a 300-wide debounce window yield exactly one
autosave attempt, carrying the value map of the second update. -/
theorem debounce_single_autosave_witness :
    (fireTimer
        (fireTimer
          (doUpdate 300
            (doUpdate 300
              { sess := demoSession, pendingAt := none, attempts := [] }
              0 "country" (Value.str "US"))
            100 "country" (Value.str "CA"))
          (0 + 300))
        (100 + 300)).attempts =
      ({ sess := demoSession, pendingAt := none, attempts := [] } :
          AutosaveState).attempts ++
        [(doUpdate 300
            (doUpdate 300
              { sess := demoSession, pendingAt := none, attempts := [] }
              0 "country" (Value.str "US"))
            100 "country" (Value.str "CA")).sess.values] :=
  (debounce_single_autosave 300
      { sess := demoSession, pendingAt := none, attempts := [] }
      0 100 "country" "country" (Value.str "US") (Value.str "CA")
      (by decide) (by decide) (by decide) (by decide)).1 (by decide)

end TicketFlow
